import Mathlib

/-!
Verification development for the google-sheets-node-api client
(`src/index.js`).  The JavaScript source is shallowly embedded: JavaScript
values are modelled by the inductive `JSVal`, the fallible parts of the code
(property access on `null`, thrown errors) by `Except JsError`, and each
function of the source by a Lean definition of the same name wherever Lean
allows it.  Strings are handled through their character lists so that every
definition is executable and closed goals reduce.
-/

set_option maxHeartbeats 1000000
set_option maxRecDepth 10000

/-- Model of a JavaScript value as the source manipulates them: `undefined`,
`null`, booleans, integers, strings, plain objects (ordered key/value lists,
keys unique) and arrays. -/
inductive JSVal where
  | vundef : JSVal
  | vnull : JSVal
  | vbool (b : Bool) : JSVal
  | vnum (n : Int) : JSVal
  | vstr (s : String) : JSVal
  | vobj (fields : List (String × JSVal)) : JSVal
  | varr (elems : List JSVal) : JSVal

/-- Errors a modelled JavaScript computation can raise: a `TypeError` from a
property access on `null`/`undefined`, or an explicit `throw new Error(msg)`. -/
inductive JsError where
  | typeError : JsError
  | thrown (msg : String) : JsError
deriving DecidableEq

/-- JavaScript truthiness of a `JSVal`. -/
def jsTruthy : JSVal → Bool
  | .vundef => false
  | .vnull => false
  | .vbool b => b
  | .vnum n => n != 0
  | .vstr s => s != ""
  | .vobj _ => true
  | .varr _ => true

/-- JavaScript string conversion `String(v)` as the source relies on it: the
interesting case is a plain object, which stringifies to `[object Object]`.
An array stringifies to the comma join of its items; no claim below ever
stringifies an array, so that join is modelled by the empty-array result. -/
def jsToString : JSVal → String
  | .vundef => "undefined"
  | .vnull => "null"
  | .vbool b => if b then "true" else "false"
  | .vnum n => toString n
  | .vstr s => s
  | .vobj _ => "[object Object]"
  | .varr _ => ""

/-- Lookup of a property on a plain object: the bound value, or `undefined`
when the key is absent (keys of a modelled object are unique). -/
def objLookup (fields : List (String × JSVal)) (key : String) : JSVal :=
  match fields.lookup key with
  | some v => v
  | none => JSVal.vundef

/-- JavaScript property assignment `o[key] = v` on an ordered-field object:
overwrite in place when the key is present, append otherwise. -/
def recordSet {α : Type} (fields : List (String × α)) (key : String) (v : α) :
    List (String × α) :=
  if fields.any (fun kv => kv.1 = key) then
    fields.map (fun kv => if kv.1 = key then (key, v) else kv)
  else fields ++ [(key, v)]

/-- Property access `v.key` that never throws: objects give their binding or
`undefined`, primitives give `undefined`.  Used where the source has already
guarded `v` against `null`/`undefined` (so the throwing cases cannot occur). -/
def propOrUndef (v : JSVal) (key : String) : JSVal :=
  match v with
  | .vobj fields => objLookup fields key
  | _ => JSVal.vundef

/-- Property access `v.key` with JavaScript error behaviour: on `null` or
`undefined` it raises a `TypeError`, on an object it yields the binding (or
`undefined`), on any other primitive it yields `undefined`. -/
def jsGetProp (v : JSVal) (key : String) : Except JsError JSVal :=
  match v with
  | .vnull => .error .typeError
  | .vundef => .error .typeError
  | .vobj fields => .ok (objLookup fields key)
  | _ => .ok JSVal.vundef

/-- The strict comparison `v === true` used by the empty-response guards. -/
def jsStrictEqTrue : JSVal → Bool
  | .vbool b => b
  | _ => false

/-- The strict comparison `v === s` against a string literal. -/
def jsStrictEqStr (v : JSVal) (s : String) : Bool :=
  match v with
  | .vstr t => t == s
  | _ => false

/-- Calling `.toString()` on a value: a method call, so it throws on `null`
and `undefined`; on a string it is the identity. -/
def jsToStringMethod (v : JSVal) : Except JsError String :=
  match v with
  | .vnull => .error .typeError
  | .vundef => .error .typeError
  | v => .ok (jsToString v)

/-- Array indexing `a[i]` as the source uses it on `entries_xml[i++]`:
indexing `null` (a failed `match`) throws, indexing an array out of bounds
gives `undefined`. -/
def jsIndex (v : JSVal) (i : Nat) : Except JsError JSVal :=
  match v with
  | .vnull => .error .typeError
  | .vundef => .error .typeError
  | .varr l => .ok (l.getD i JSVal.vundef)
  | _ => .ok JSVal.vundef

/-- `forceArray` (src/index.js lines 340-344): an array is returned as is, a
falsy value becomes `[]`, anything else is wrapped in a singleton. -/
def forceArray (v : JSVal) : List JSVal :=
  match v with
  | .varr l => l
  | v => if jsTruthy v then [v] else []

/-- One global single-character regex replacement, the shape of each
`.replace(/c/g, repl)` step in `xmlSafeValue`. -/
def replaceAllChar (c : Char) (repl : List Char) : List Char → List Char
  | [] => []
  | x :: xs => (if x = c then repl else [x]) ++ replaceAllChar c repl xs

/-- The character-list core of `xmlSafeValue` (src/index.js lines 345-351):
replace `&` first, then `<`, `>` and `"`, each globally. -/
def xmlSafeValueL (s : List Char) : List Char :=
  replaceAllChar '\"' ("&quot;").data
    (replaceAllChar '>' ("&gt;").data
      (replaceAllChar '<' ("&lt;").data
        (replaceAllChar '&' ("&amp;").data s)))

/-- `xmlSafeValue` (src/index.js lines 345-351): `null` and `undefined`
(`val == null`) give the empty string, every other value is stringified and
entity-escaped. -/
def xmlSafeValue : JSVal → String
  | .vnull => ""
  | .vundef => ""
  | v => ⟨xmlSafeValueL (jsToString v).data⟩

/-- Membership of a code point in the JavaScript `\s` class (the whitespace
characters the regex in `xmlSafeColumnName` strips). -/
def isJsSpace (c : Char) : Bool :=
  c.toNat ∈ [9, 10, 11, 12, 13, 32, 160, 5760, 8192, 8193, 8194, 8195, 8196,
    8197, 8198, 8199, 8200, 8201, 8202, 8232, 8233, 8239, 8287, 12288, 65279]

/-- The ASCII fragment of JavaScript `toLowerCase`, the only part the
sanitized column names exercise. -/
def jsToLowerChar (c : Char) : Char :=
  if 65 ≤ c.toNat ∧ c.toNat ≤ 90 then Char.ofNat (c.toNat + 32) else c

/-- `xmlSafeColumnName` (src/index.js lines 352-356): a falsy value (for a
string argument, the empty string) gives `""`; otherwise whitespace and
underscores are removed (`/[\s_]+/g` replaced by the empty string) and the
result is lowercased. -/
def xmlSafeColumnName (s : String) : String :=
  if s = "" then ""
  else ⟨(s.data.filter (fun c => !(isJsSpace c || c = '_'))).map jsToLowerChar⟩

/-- Whether `pat` is a prefix of `s` (the head test of every literal and
regex search in this development). -/
def isPrefixL : List Char → List Char → Bool
  | [], _ => true
  | _ :: _, [] => false
  | a :: as, b :: bs => a == b && isPrefixL as bs

/-- Whether `pat` occurs as a contiguous substring, the test behind every
`indexOf(pat) >= 0` in the source. -/
def containsSub (pat : List Char) : List Char → Bool
  | [] => pat.isEmpty
  | c :: cs => isPrefixL pat (c :: cs) || containsSub pat cs

/-- An HTTP response as `makeFeedRequest` inspects it: the status code, the
`content-type` header and the body text. -/
structure HttpResponse where
  status : Nat
  contentType : String
  body : String

/-- The failures `makeFeedRequest` can raise while classifying a response
(src/index.js lines 123-131), each carrying its message. -/
inductive FeedFailure where
  | invalidAuth (msg : String) : FeedFailure
  | httpError (msg : String) : FeedFailure
  | sheetPrivate (msg : String) : FeedFailure

/-- Model of the entries of the Node `http.STATUS_CODES` table that messages
interpolate; a status outside the table interpolates as `undefined`, exactly
as JavaScript stringifies the missing entry. -/
def STATUS_CODES (status : Nat) : String :=
  if status = 400 then "Bad Request"
  else if status = 401 then "Unauthorized"
  else if status = 403 then "Forbidden"
  else if status = 404 then "Not Found"
  else if status = 500 then "Internal Server Error"
  else "undefined"

/-- Response classification of `makeFeedRequest` (src/index.js lines
123-131), in source order: status 401, then any status at least 400, then
status 200 whose `content-type` contains `text/html`
(`indexOf('text/html') >= 0`), otherwise the body is passed on. -/
def classifyResponse (res : HttpResponse) : Except FeedFailure String :=
  if res.status = 401 then
    .error (.invalidAuth ("Invalid authorization key. " ++ res.body))
  else if 400 ≤ res.status then
    .error (.httpError ("HTTP error " ++ toString res.status ++ ": " ++
      STATUS_CODES res.status ++ ". " ++ res.body))
  else if res.status = 200 ∧ containsSub ("text/html").data res.contentType.data then
    .error (.sheetPrivate ("Sheet is private. Use authentication or make public. (see https://github.com/theoephraim/node-google-spreadsheet#a-note-on-authentication for details)\n" ++ res.body))
  else .ok res.body

/-- The tail of `makeFeedRequest` (src/index.js lines 132-136): a classified
body is parsed when truthy (non-empty), giving `(parsed, rawXml)`; an empty
body gives `(null, null)`.  The XML parser itself is a parameter: which
parser runs is irrelevant to every claim about this stage. -/
def feedPipeline (parse : String → JSVal) (res : HttpResponse) :
    Except FeedFailure (JSVal × JSVal) :=
  match classifyResponse res with
  | .error e => .error e
  | .ok body =>
    if body ≠ "" then .ok (parse body, JSVal.vstr body)
    else .ok (JSVal.vnull, JSVal.vnull)

/-- The client state a `GooogleSpreadsheet` instance closes over
(src/index.js lines 15-26): the auth mode string, the live credential, the
computed visibility and projection, and the constructor options that can pin
the latter two. -/
structure ClientState where
  auth_mode : String
  google_auth : JSVal
  visibility : String
  projection : String
  options_visibility : JSVal
  options_projection : JSVal

/-- `setAuthAndDependencies` (src/index.js lines 39-47): store the credential
and, for each of visibility and projection not pinned by the constructor
options, re-derive it from the presence of a credential. -/
def setAuthAndDependencies (st : ClientState) (auth : JSVal) : ClientState :=
  ClientState.mk st.auth_mode auth
    (if jsTruthy st.options_visibility then st.visibility
     else if jsTruthy auth then "private" else "public")
    (if jsTruthy st.options_projection then st.projection
     else if jsTruthy auth then "full" else "values")
    st.options_visibility st.options_projection

/-- Replace only the auth mode of a client state. -/
def withAuthMode (st : ClientState) (m : String) : ClientState :=
  ClientState.mk m st.google_auth st.visibility st.projection
    st.options_visibility st.options_projection

/-- `setAuthToken` (src/index.js lines 54-57): from `anonymous` the mode
becomes `token` (any other mode is kept), then the credential is stored. -/
def setAuthToken (st : ClientState) (auth : JSVal) : ClientState :=
  setAuthAndDependencies
    (if st.auth_mode = "anonymous" then withAuthMode st "token" else st) auth

/-- A token as the JWT client hands it back (`authorize` callback value). -/
structure FetchedToken where
  token_type : String
  access_token : String
  expiry_date : Int

/-- The credential object `renewJwtAuth` injects (src/index.js lines 68-72). -/
def tokenObjOf (tok : FetchedToken) : JSVal :=
  JSVal.vobj [("type", JSVal.vstr tok.token_type),
    ("value", JSVal.vstr tok.access_token),
    ("expires", JSVal.vnum tok.expiry_date)]

/-- `renewJwtAuth` (src/index.js lines 65-75): set the mode to `jwt`, then
inject the token the JWT client returned through `setAuthToken`. -/
def renewJwtAuth (st : ClientState) (tok : FetchedToken) : ClientState :=
  setAuthToken (withAuthMode st "jwt") (tokenObjOf tok)

/-- The JavaScript comparison `x > now` as the expiry check uses it: a number
compares numerically and `undefined` compares false. -/
def jsGreaterNum (v : JSVal) (now : Int) : Bool :=
  match v with
  | .vnum x => now < x
  | _ => false

/-- The pre-request auth step of `makeFeedRequest` (src/index.js lines
92-95): outside `jwt` mode nothing happens; in `jwt` mode an unexpired
cached token (`google_auth.expires > +new Date()`) is kept, otherwise
`renewJwtAuth` runs once.  The second component counts the refreshes the
step performed. -/
def preRequestAuth (st : ClientState) (now : Int) (tok : FetchedToken) :
    ClientState × Nat :=
  if st.auth_mode ≠ "jwt" then (st, 0)
  else if jsGreaterNum (propOrUndef st.google_auth "expires") now then (st, 0)
  else (renewJwtAuth st tok, 1)

/-- Header construction of `makeFeedRequest` (src/index.js lines 97-108): a
truthy credential whose `type` is strictly `Bearer` gets a bearer header from
its `value`; any other truthy credential is concatenated whole into a
`GoogleLogin` header; `POST` and `PUT` additionally fix the content type. -/
def buildHeaders (google_auth : JSVal) (method : String) :
    List (String × String) :=
  let headers : List (String × String) := []
  let headers :=
    if jsTruthy google_auth then
      if jsStrictEqStr (propOrUndef google_auth "type") "Bearer" then
        recordSet headers "Authorization"
          ("Bearer " ++ jsToString (propOrUndef google_auth "value"))
      else
        recordSet headers "Authorization" ("GoogleLogin auth=" ++ jsToString google_auth)
    else headers
  if method = "POST" ∨ method = "PUT" then
    recordSet headers "content-type" "application/atom+xml"
  else headers

/-- The `Authorization` header a request built from this credential carries,
if any. -/
def authorizationHeader (google_auth : JSVal) : Option String :=
  (buildHeaders google_auth "GET").lookup "Authorization"

/-- The two public credential-mutating operations of the client, each with
the data it injects: `setAuthToken` with a credential value, and
`useServiceAccountAuth` whose `renewJwtAuth` run completes with the token
the JWT client fetched. -/
inductive AuthOp where
  | setTok (auth : JSVal) : AuthOp
  | useServiceAccount (tok : FetchedToken) : AuthOp

/-- Apply one credential operation to the client state. -/
def applyAuthOp (st : ClientState) : AuthOp → ClientState
  | .setTok auth => setAuthToken st auth
  | .useServiceAccount tok => renewJwtAuth st tok

/-- Run a sequence of credential operations left to right. -/
def runAuthOps (st : ClientState) (ops : List AuthOp) : ClientState :=
  ops.foldl applyAuthOp st

/-- All auth modes a run visits, the initial one included. -/
def modeTrace (st : ClientState) : List AuthOp → List String
  | [] => [st.auth_mode]
  | op :: ops => st.auth_mode :: modeTrace (applyAuthOp st op) ops

/-- Whether every consecutive pair of a trace satisfies the step predicate. -/
def stepsOK (allowed : String → String → Bool) : List String → Bool
  | a :: b :: rest => allowed a b && stepsOK allowed (b :: rest)
  | _ => true

/-- The transition set the claim allows: staying in place, anonymous to
token, anonymous to service-account (`jwt`). -/
def claimedStep (a b : String) : Bool :=
  a == b || (a == "anonymous" && b == "token") || (a == "anonymous" && b == "jwt")

/-- The transition set the code realises: staying in place, anonymous to
token, and any mode to `jwt` (`useServiceAccountAuth` upgrades from token
mode too). -/
def actualStep (a b : String) : Bool :=
  a == b || (a == "anonymous" && b == "token") || b == "jwt"

/-- Split at the leftmost occurrence of `pat`: `some (pre, post)` with the
subject equal to `pre ++ pat ++ post`, or `none` when `pat` does not occur.
This is both the string-`replace` search and the lazy `([\s\S]*?)` search
(a lazy any-character group before a literal matches up to that literal's
first occurrence). -/
def splitOnFirst (pat : List Char) : List Char → Option (List Char × List Char)
  | [] => if pat.isEmpty then some ([], []) else none
  | c :: cs =>
    if isPrefixL pat (c :: cs) then some ([], (c :: cs).drop pat.length)
    else
      match splitOnFirst pat cs with
      | some (pre, post) => some (c :: pre, post)
      | none => none

theorem splitOnFirst_post_length (pat : List Char) :
    ∀ (s pre post : List Char), splitOnFirst pat s = some (pre, post) →
      post.length ≤ s.length := by
  intro s
  induction s with
  | nil =>
    intro pre post h
    simp only [splitOnFirst] at h
    split at h
    · simp only [Option.some.injEq, Prod.mk.injEq] at h
      simp [← h.2]
    · exact absurd h (by simp)
  | cons c cs ih =>
    intro pre post h
    simp only [splitOnFirst] at h
    split at h
    · simp only [Option.some.injEq, Prod.mk.injEq] at h
      rw [← h.2]
      simp [Nat.sub_le]
    · revert h
      split
      · rename_i pre2 post2 hm
        intro h
        simp only [Option.some.injEq, Prod.mk.injEq] at h
        have := ih pre2 post2 hm
        rw [← h.2]
        exact Nat.le_succ_of_le this
      · intro h
        exact absurd h (by simp)

/-- The numeric value of an ASCII digit, for `$n` group references. -/
def jsDigit (c : Char) : Option Nat :=
  if '0' ≤ c ∧ c ≤ '9' then some (c.toNat - 48) else none

/-- ECMAScript GetSubstitution: the expansion a string replacement undergoes
in `String.prototype.replace`.  `matched` is the matched substring, `pre` and
`post` the parts of the subject before and after it, `captures` the capture
groups of the match (the pattern in `save()` has exactly one, a literal
string pattern has none).  `$$` is a literal dollar, `$&` the match,
a dollar followed by a backquote (`\x60`) the preceding text, `$\x27` the
following text, `$n`/`$nn` a capture reference when the group exists (the
two-digit reading is tried first), and any other `$` is literal. -/
def expandDollar (matched pre post : List Char) (captures : List (List Char)) :
    List Char → List Char
  | [] => []
  | ['$'] => ['$']
  | '$' :: '$' :: rest2 => '$' :: expandDollar matched pre post captures rest2
  | '$' :: '&' :: rest2 => matched ++ expandDollar matched pre post captures rest2
  | '$' :: '\x60' :: rest2 => pre ++ expandDollar matched pre post captures rest2
  | '$' :: '\'' :: rest2 => post ++ expandDollar matched pre post captures rest2
  | '$' :: c2 :: c3 :: rest3 =>
    match jsDigit c2, jsDigit c3 with
    | some d1, some d2 =>
      if 1 ≤ 10 * d1 + d2 ∧ 10 * d1 + d2 ≤ captures.length then
        captures.getD (10 * d1 + d2 - 1) [] ++
          expandDollar matched pre post captures rest3
      else if 1 ≤ d1 ∧ d1 ≤ captures.length then
        captures.getD (d1 - 1) [] ++
          expandDollar matched pre post captures (c3 :: rest3)
      else '$' :: expandDollar matched pre post captures (c2 :: c3 :: rest3)
    | some d1, none =>
      if 1 ≤ d1 ∧ d1 ≤ captures.length then
        captures.getD (d1 - 1) [] ++
          expandDollar matched pre post captures (c3 :: rest3)
      else '$' :: expandDollar matched pre post captures (c2 :: c3 :: rest3)
    | none, _ => '$' :: expandDollar matched pre post captures (c2 :: c3 :: rest3)
  | '$' :: [c2] =>
    match jsDigit c2 with
    | some d1 =>
      if 1 ≤ d1 ∧ d1 ≤ captures.length then captures.getD (d1 - 1) []
      else ['$', c2]
    | none => ['$', c2]
  | c :: rest => c :: expandDollar matched pre post captures rest

/-- JavaScript `s.replace(literal, repl)`: replace the first occurrence of a
literal pattern by the `$`-expanded replacement string (a literal pattern
has no capture groups and matches itself), or return the subject unchanged
when the pattern does not occur. -/
def replaceFirstLit (pat repl : List Char) (s : List Char) : List Char :=
  match splitOnFirst pat s with
  | some (pre, post) => pre ++ expandDollar pat pre post [] repl ++ post
  | none => s

/-- The search of `new RegExp(open + lazyGroup + close)` without the global
flag: the leftmost position where `opn` matches and `cls` occurs afterwards,
with the shortest inner text.  Returns `(pre, inner, post)` with the subject
equal to `pre ++ opn ++ inner ++ cls ++ post`. -/
def findTagged (opn cls : List Char) : List Char →
    Option (List Char × List Char × List Char)
  | [] => none
  | c :: cs =>
    if isPrefixL opn (c :: cs) then
      match splitOnFirst cls ((c :: cs).drop opn.length) with
      | some (inner, post) => some ([], inner, post)
      | none =>
        match findTagged opn cls cs with
        | some (pre, inner, post) => some (c :: pre, inner, post)
        | none => none
    else
      match findTagged opn cls cs with
      | some (pre, inner, post) => some (c :: pre, inner, post)
      | none => none

/-- One `data_xml.replace(new RegExp('<gsx:k>([\s\S]*?)</gsx:k>'), repl)`
step of `SpreadsheetRow.save`: replace the whole first tagged span by the
`$`-expanded replacement string (the pattern has one capture group, the
inner text), or return the subject unchanged when the pattern does not
match. -/
def replaceTagged (opn cls repl : List Char) (s : List Char) : List Char :=
  match findTagged opn cls s with
  | some (pre, inner, post) =>
      pre ++ expandDollar (opn ++ inner ++ cls) pre post [inner] repl ++ post
  | none => s

/-- What follows the attribute run `[^>]*` of an entry tag: the subject with
its maximal `>`-free prefix removed. -/
def entryRestAfterAttrs (afterOpen : List Char) : List Char :=
  afterOpen.drop (afterOpen.takeWhile (fun c => c ≠ '>')).length

/-- An attempt to match `/<entry[^>]*>([\s\S]*?)<\/entry>/` exactly at the
head of the subject: the full match text and the rest of the subject. -/
def matchEntryAt (l : List Char) : Option (List Char × List Char) :=
  if isPrefixL ("<entry").data l then
    match entryRestAfterAttrs (l.drop 6) with
    | '>' :: afterGt =>
      match splitOnFirst ("</entry>").data afterGt with
      | some (inner, rest) =>
        some (("<entry").data ++ (l.drop 6).takeWhile (fun c => c ≠ '>') ++
          '>' :: (inner ++ ("</entry>").data), rest)
      | none => none
    | _ => none
  else none

theorem entryRestAfterAttrs_length_le (x : List Char) :
    (entryRestAfterAttrs x).length ≤ x.length := by
  simp [entryRestAfterAttrs, List.length_drop]

theorem isPrefixL_length (pat s : List Char) (h : isPrefixL pat s = true) :
    pat.length ≤ s.length := by
  induction pat generalizing s with
  | nil => simp
  | cons a as ih =>
    cases s with
    | nil => simp [isPrefixL] at h
    | cons b bs =>
      simp only [isPrefixL, Bool.and_eq_true] at h
      have := ih bs h.2
      simp only [List.length_cons]
      omega

theorem matchEntryAt_rest_length (l m rest : List Char)
    (h : matchEntryAt l = some (m, rest)) : rest.length < l.length := by
  unfold matchEntryAt at h
  split at h
  · rename_i hpre
    split at h
    · rename_i afterGt heq
      split at h
      · rename_i inner rest2 hsplit
        simp only [Option.some.injEq, Prod.mk.injEq] at h
        have h1 : rest2.length ≤ afterGt.length :=
          splitOnFirst_post_length _ _ _ _ hsplit
        have h2 : (('>' :: afterGt) : List Char).length ≤ (l.drop 6).length := by
          rw [← heq]
          exact entryRestAfterAttrs_length_le _
        have h4 : 6 ≤ l.length := by
          have hp := isPrefixL_length _ _ hpre
          simpa using hp
        have h5 : rest2.length = rest.length := by rw [h.2]
        simp only [List.length_cons, List.length_drop] at h2
        omega
      · exact absurd h (by simp)
    · exact absurd h (by simp)
  · exact absurd h (by simp)

/-- The global scan of `xml.match(/<entry[^>]*>([\s\S]*?)<\/entry>/g)`: after
a match the scan resumes past it, after a failed position it advances one
character. -/
def entriesScan (l : List Char) : List (List Char) :=
  match hm : matchEntryAt l with
  | some (m, rest) => m :: entriesScan rest
  | none =>
    match l with
    | [] => []
    | _ :: cs => entriesScan cs
termination_by l.length
decreasing_by
  · exact matchEntryAt_rest_length _ _ _ hm
  · simp

/-- `xml.match(...entry regex...)` as `getRows` calls it: `null` when there
is no match, the array of full match texts otherwise. -/
def jsMatchEntries (xml : String) : JSVal :=
  match entriesScan xml.data with
  | [] => JSVal.vnull
  | ms => JSVal.varr (ms.map (fun m => JSVal.vstr (String.mk m)))

/-- The `typeof val === 'object' && Object.keys(val).length === 0` test of
the row constructor.  (`typeof null` is also `'object'`, but `Object.keys`
would then throw and the XML parser never yields `null` values, so only
empty objects and empty arrays satisfy the test.) -/
def isEmptyObject : JSVal → Bool
  | .vobj fields => fields.isEmpty
  | .varr elems => elems.isEmpty
  | _ => false

/-- The `link` branch of the row constructor (src/index.js lines 268-274):
force the value into an array and record `rel`-keyed `href` entries;
`link['$']['rel']` throws when a link has no attribute object. -/
def buildLinks (val : JSVal) : Except JsError JSVal := do
  let links := forceArray val
  let fields ← links.foldlM (fun (acc : List (String × JSVal)) link => do
    let dollar ← jsGetProp link "$"
    let rel ← jsGetProp dollar "rel"
    let href ← jsGetProp dollar "href"
    return recordSet acc (jsToString rel) href) []
  return JSVal.vobj fields

/-- One key of the `SpreadsheetRow` constructor loop (src/index.js lines
252-276): a `gsx:`-prefixed key stores its value under the stripped name
(under `gsx` for the bare prefix), an empty-object value becoming `null`;
`id` is stored as is; a value with a text marker `_` stores that text; the
`link` key builds the `_links` record; anything else is dropped. -/
def rowStep (self : List (String × JSVal)) (key : String) (val : JSVal) :
    Except JsError (List (String × JSVal)) :=
  if key.take 4 = "gsx:" then
    let val := if isEmptyObject val then JSVal.vnull else val
    if key = "gsx:" then .ok (recordSet self (key.take 3) val)
    else .ok (recordSet self (key.drop 4) val)
  else
    if key = "id" then .ok (recordSet self key val)
    else do
      let u ← jsGetProp val "_"
      if jsTruthy u then .ok (recordSet self key u)
      else if key = "link" then do
        let links ← buildLinks val
        .ok (recordSet self "_links" links)
      else .ok self

/-- The `SpreadsheetRow` constructor (src/index.js lines 249-276) up to its
stored fields: `_xml` holds the captured fragment, then every key of the
parsed entry is processed in order.  The parsed entry is always an object
(`Object.keys` on `null` or `undefined` would throw). -/
def spreadsheetRow (data : JSVal) (xml : JSVal) :
    Except JsError (List (String × JSVal)) :=
  match data with
  | .vobj kvs => kvs.foldlM (fun self kv => rowStep self kv.1 kv.2) [("_xml", xml)]
  | _ => .error .typeError

/-- The namespace-bearing opening tag `save()` substitutes for a bare
`<entry>` (src/index.js line 287). -/
def nsEntryOpen : String :=
  "<entry xmlns='http://www.w3.org/2005/Atom' xmlns:gsx='http://schemas.google.com/spreadsheets/2006/extended'>"

/-- The opening tag `'<gsx:' + k + '>'` of a column pattern in `save()`. -/
def gsxOpenTag (k : String) : List Char := ("<gsx:" ++ k ++ ">").data

/-- The closing tag `'</gsx:' + k + '>'` of a column pattern in `save()`. -/
def gsxCloseTag (k : String) : List Char := ("</gsx:" ++ k ++ ">").data

/-- One iteration of the key loop in `SpreadsheetRow.save` (src/index.js
lines 288-292).  Only keys starting with `_` are skipped: the source also
tests `typeof (self[key] == 'string')`, which is the string `'boolean'` and
therefore always truthy.  Method-valued and metadata keys pass the filter
but their `<gsx:...>` pattern matches nothing in an entry fragment. -/
def rowSaveReplaceStep (acc : List Char) (kv : String × JSVal) : List Char :=
  if kv.1.take 1 ≠ "_" then
    replaceTagged (gsxOpenTag (xmlSafeColumnName kv.1))
      (gsxCloseTag (xmlSafeColumnName kv.1))
      (gsxOpenTag (xmlSafeColumnName kv.1) ++ (xmlSafeValue kv.2).data ++
        gsxCloseTag (xmlSafeColumnName kv.1)) acc
  else acc

/-- The XML document `SpreadsheetRow.save` sends to the edit link
(src/index.js lines 278-294): the captured fragment with a bare `<entry>`
opening tag replaced by the namespace-bearing one, then one tagged-span
replacement per stored key. -/
def rowSaveXml (fields : List (String × JSVal)) (xml : String) : String :=
  String.mk (fields.foldl rowSaveReplaceStep
    (replaceFirstLit ("<entry>").data nsEntryOpen.data xml.data))

/-- The text after the last `/` of a worksheet id URL
(`data.id.substring(data.id.lastIndexOf("/") + 1)`). -/
def lastUrlSegment (s : String) : String :=
  String.mk ((s.data.reverse.takeWhile (fun c => c ≠ '/')).reverse)

/-- A value a string method such as `.substring` is invoked on: any
non-string lacks the method and the call throws. -/
def jsAsString : JSVal → Except JsError String
  | .vstr s => .ok s
  | _ => .error .typeError

/-- The `SpreadsheetWorksheet` constructor (src/index.js lines 230-236) up
to its stored fields. -/
def spreadsheetWorksheet (data : JSVal) : Except JsError JSVal := do
  let idv ← jsGetProp data "id"
  let ids ← jsAsString idv
  let titlev ← jsGetProp data "title"
  let title ← jsGetProp titlev "_"
  let rowCount ← jsGetProp data "gs:rowCount"
  let colCount ← jsGetProp data "gs:colCount"
  return JSVal.vobj [("id", JSVal.vstr (lastUrlSegment ids)), ("title", title),
    ("rowCount", rowCount), ("colCount", colCount)]

/-- What `getInfo` does with the pipeline result (src/index.js lines
140-157): the empty-response guard compares `data === true`, then the
spreadsheet record is built, `data.title` throwing when `data` is `null`. -/
def getInfoPost (data : JSVal) : Except JsError JSVal := do
  if jsStrictEqTrue data then throw (JsError.thrown "No response to getInfo call")
  let titlev ← jsGetProp data "title"
  let title ← jsGetProp titlev "_"
  let updated ← jsGetProp data "updated"
  let author ← jsGetProp data "author"
  let entryv ← jsGetProp data "entry"
  let wss ← (forceArray entryv).mapM spreadsheetWorksheet
  return JSVal.vobj [("title", title), ("updated", updated), ("author", author),
    ("worksheets", JSVal.varr wss)]

/-- Construction of one row of `getRows` (src/index.js line 186): the raw
fragment `entries_xml[i]` (throwing when the match returned `null`) is paired
with the normalized entry. -/
def spreadsheetRowOf (idx : Nat) (entriesXml : JSVal) (row_data : JSVal) :
    Except JsError JSVal := do
  let frag ← jsIndex entriesXml idx
  let fields ← spreadsheetRow row_data frag
  return JSVal.vobj fields

/-- What `getRows` does with the pipeline result (src/index.js lines
175-190): the `data === true` guard, then `xml.toString('utf-8')` (throwing
when `xml` is `null`), the entry-fragment match, and one `SpreadsheetRow`
per forced entry. -/
def getRowsPost (data xmlv : JSVal) : Except JsError JSVal := do
  if jsStrictEqTrue data then throw (JsError.thrown "No response to getRows call")
  let xml ← jsToStringMethod xmlv
  let entriesXml := jsMatchEntries xml
  let entryv ← jsGetProp data "entry"
  let rows ← (forceArray entryv).enum.mapM
    (fun p => spreadsheetRowOf p.1 entriesXml p.2)
  return JSVal.varr rows

/-- What `getCells` does with the pipeline result (src/index.js lines
212-225): the `data === true` guard, then one `SpreadsheetCell` per forced
entry of `data['entry']` (throwing when `data` is `null`).  The cell
constructor itself is a parameter: its numeric parsing matters to no claim
about this stage. -/
def getCellsPost (mkCell : JSVal → Except JsError JSVal) (data : JSVal) :
    Except JsError JSVal := do
  if jsStrictEqTrue data then throw (JsError.thrown "No response to getCells call")
  let entryv ← jsGetProp data "entry"
  let cells ← (forceArray entryv).mapM mkCell
  return JSVal.varr cells

/-- The query object `getRows` builds from its options (src/index.js lines
165-173): `opts = opts || {}`, then each option is forwarded under its feed
parameter name only when truthy. -/
def getRowsQuery (opts0 : JSVal) : List (String × JSVal) :=
  let opts := if jsTruthy opts0 then opts0 else JSVal.vobj []
  let query : List (String × JSVal) := []
  let query := if jsTruthy (propOrUndef opts "start") then
    recordSet query "start-index" (propOrUndef opts "start") else query
  let query := if jsTruthy (propOrUndef opts "num") then
    recordSet query "max-results" (propOrUndef opts "num") else query
  let query := if jsTruthy (propOrUndef opts "orderby") then
    recordSet query "orderby" (propOrUndef opts "orderby") else query
  let query := if jsTruthy (propOrUndef opts "reverse") then
    recordSet query "reverse" (propOrUndef opts "reverse") else query
  if jsTruthy (propOrUndef opts "query") then
    recordSet query "sq" (propOrUndef opts "query") else query

/-- Whether a built query object carries a parameter. -/
def hasQueryKey (q : List (String × JSVal)) (k : String) : Bool :=
  q.any (fun kv => kv.1 = k)

/-- The per-character effect `xmlSafeValue` is claimed to have: exactly `&`,
`<`, `>` and `"` become entities, every other character is untouched. -/
def escChar (c : Char) : List Char :=
  if c = '&' then ("&amp;").data
  else if c = '<' then ("&lt;").data
  else if c = '>' then ("&gt;").data
  else if c = '\"' then ("&quot;").data
  else [c]

/-- Decoding of the four entities `xmlSafeValue` writes, leftmost first;
any other character passes through. -/
def unescapeXml : List Char → List Char
  | [] => []
  | c :: rest =>
    if c = '&' then
      if ['a', 'm', 'p', ';'].isPrefixOf rest then '&' :: unescapeXml (rest.drop 4)
      else if ['l', 't', ';'].isPrefixOf rest then '<' :: unescapeXml (rest.drop 3)
      else if ['g', 't', ';'].isPrefixOf rest then '>' :: unescapeXml (rest.drop 3)
      else if ['q', 'u', 'o', 't', ';'].isPrefixOf rest then
        '\"' :: unescapeXml (rest.drop 5)
      else c :: unescapeXml rest
    else c :: unescapeXml rest
termination_by l => l.length
decreasing_by all_goals (simp [List.length_drop]; try omega)

/-- A freshly constructed client with no credential (src/index.js lines
15-26 with `auth_id` null and no options). -/
def anonClient : ClientState :=
  ClientState.mk "anonymous" JSVal.vnull "public" "values" JSVal.vundef JSVal.vundef

/-- A two-column raw entry fragment as `getRows` captures them. -/
def rowFrag3 : String := "<entry><gsx:a>1</gsx:a><gsx:b>2</gsx:b></entry>"

/-- The stored fields of the row built from `rowFrag3` after its column `b`
is set to `bval`: the captured `_xml`, the entry `id`, the two columns and
the `_links` record (`a` and `id` keep their parsed values). -/
def rowFields3 (bval : String) : List (String × JSVal) :=
  [("_xml", JSVal.vstr rowFrag3), ("id", JSVal.vstr "r1"),
   ("a", JSVal.vstr "1"), ("b", JSVal.vstr bval),
   ("_links", JSVal.vobj [("edit", JSVal.vstr "https://example.invalid/edit")])]

/-- C2: the spec says an empty-body success surfaces the specific
`No response to ...` failure of each operation, but every guard compares the
pipeline result against `true` while the pipeline returns `(null, null)`, so
each operation instead dies with a `TypeError` on a `null` property access
(`data.title`, `xml.toString`, `data['entry']`). -/
theorem C2_empty_body_guard_never_fires :
    feedPipeline (fun _ => JSVal.vnull) (HttpResponse.mk 200 "application/atom+xml" "") =
      .ok (JSVal.vnull, JSVal.vnull) ∧
    getInfoPost JSVal.vnull = .error JsError.typeError ∧
    getRowsPost JSVal.vnull JSVal.vnull = .error JsError.typeError ∧
    getCellsPost (fun c => .ok c) JSVal.vnull = .error JsError.typeError ∧
    JsError.typeError ≠ JsError.thrown "No response to getInfo call" ∧
    JsError.typeError ≠ JsError.thrown "No response to getRows call" ∧
    JsError.typeError ≠ JsError.thrown "No response to getCells call" :=
  ⟨rfl, rfl, rfl, rfl, by decide, by decide, by decide⟩

/-- C7: in the row constructor, a column-namespaced key whose value is an
empty object is stored under its stripped name as `null`, which is neither
an empty object nor the empty string. -/
theorem C7_empty_gsx_column_normalizes_to_null (self : List (String × JSVal))
    (key : String) (val : JSVal) (hk : key.take 4 = "gsx:")
    (hv : isEmptyObject val = true) :
    rowStep self key val =
      .ok (recordSet self (if key = "gsx:" then key.take 3 else key.drop 4)
        JSVal.vnull) ∧
    JSVal.vnull ≠ JSVal.vobj [] ∧ JSVal.vnull ≠ JSVal.vstr "" := by
  refine ⟨?_, fun h => JSVal.noConfusion h, fun h => JSVal.noConfusion h⟩
  by_cases hkey : key = "gsx:"
  · subst hkey
    simp only [rowStep]
    rw [if_pos hk]
    simp [hv]
  · simp only [rowStep]
    rw [if_pos hk]
    simp [hv, hkey]

theorem C7_empty_gsx_column_normalizes_to_null_witness :
    rowStep [] "gsx:age" (JSVal.vobj []) =
      .ok (recordSet [] (if "gsx:age" = "gsx:" then ("gsx:age").take 3
        else ("gsx:age").drop 4) JSVal.vnull) ∧
    JSVal.vnull ≠ JSVal.vobj [] ∧ JSVal.vnull ≠ JSVal.vstr "" :=
  C7_empty_gsx_column_normalizes_to_null [] "gsx:age" (JSVal.vobj [])
    (by decide) (by decide)

/-- C5: in `jwt` mode with a cached token object, a request whose expiry is
not in the future performs exactly one refresh and stores the freshly
fetched token, while an unexpired token leaves the state untouched and
performs no refresh. -/
theorem C5_jwt_expiry_triggers_one_refresh (st : ClientState) (now : Int)
    (tok : FetchedToken) (t v : String) (e : Int)
    (hmode : st.auth_mode = "jwt")
    (hauth : st.google_auth = JSVal.vobj [("type", JSVal.vstr t),
      ("value", JSVal.vstr v), ("expires", JSVal.vnum e)]) :
    (e ≤ now → preRequestAuth st now tok = (renewJwtAuth st tok, 1) ∧
      (renewJwtAuth st tok).google_auth = tokenObjOf tok ∧
      (renewJwtAuth st tok).auth_mode = "jwt") ∧
    (now < e → preRequestAuth st now tok = (st, 0)) := by
  have h1 : ¬(("jwt" : String) ≠ "jwt") := by simp
  have h2 : jsGreaterNum (propOrUndef (JSVal.vobj [("type", JSVal.vstr t),
      ("value", JSVal.vstr v), ("expires", JSVal.vnum e)]) "expires") now =
      decide (now < e) := rfl
  constructor
  · intro hexp
    refine ⟨?_, rfl, rfl⟩
    unfold preRequestAuth
    rw [hmode, hauth, if_neg h1, h2,
      if_neg (by simp only [decide_eq_true_eq]; omega)]
  · intro hlt
    unfold preRequestAuth
    rw [hmode, hauth, if_neg h1, h2,
      if_pos (by simp only [decide_eq_true_eq]; omega)]

theorem C5_jwt_expiry_triggers_one_refresh_witness :
    ((50 : Int) ≤ 100 →
      preRequestAuth
        (ClientState.mk "jwt"
          (JSVal.vobj [("type", JSVal.vstr "Bearer"), ("value", JSVal.vstr "old"),
            ("expires", JSVal.vnum 50)]) "private" "full" JSVal.vundef JSVal.vundef)
        100 (FetchedToken.mk "Bearer" "fresh" 999) =
      (renewJwtAuth
        (ClientState.mk "jwt"
          (JSVal.vobj [("type", JSVal.vstr "Bearer"), ("value", JSVal.vstr "old"),
            ("expires", JSVal.vnum 50)]) "private" "full" JSVal.vundef JSVal.vundef)
        (FetchedToken.mk "Bearer" "fresh" 999), 1) ∧
      (renewJwtAuth
        (ClientState.mk "jwt"
          (JSVal.vobj [("type", JSVal.vstr "Bearer"), ("value", JSVal.vstr "old"),
            ("expires", JSVal.vnum 50)]) "private" "full" JSVal.vundef JSVal.vundef)
        (FetchedToken.mk "Bearer" "fresh" 999)).google_auth =
        tokenObjOf (FetchedToken.mk "Bearer" "fresh" 999) ∧
      (renewJwtAuth
        (ClientState.mk "jwt"
          (JSVal.vobj [("type", JSVal.vstr "Bearer"), ("value", JSVal.vstr "old"),
            ("expires", JSVal.vnum 50)]) "private" "full" JSVal.vundef JSVal.vundef)
        (FetchedToken.mk "Bearer" "fresh" 999)).auth_mode = "jwt") ∧
    ((100 : Int) < 50 →
      preRequestAuth
        (ClientState.mk "jwt"
          (JSVal.vobj [("type", JSVal.vstr "Bearer"), ("value", JSVal.vstr "old"),
            ("expires", JSVal.vnum 50)]) "private" "full" JSVal.vundef JSVal.vundef)
        100 (FetchedToken.mk "Bearer" "fresh" 999) =
      (ClientState.mk "jwt"
        (JSVal.vobj [("type", JSVal.vstr "Bearer"), ("value", JSVal.vstr "old"),
          ("expires", JSVal.vnum 50)]) "private" "full" JSVal.vundef JSVal.vundef, 0)) :=
  C5_jwt_expiry_triggers_one_refresh _ 100 (FetchedToken.mk "Bearer" "fresh" 999)
    "Bearer" "old" 50 rfl rfl

/-- C4 counterexample: inject a non-Bearer token object carrying a secret
value; the built header is `GoogleLogin auth=[object Object]` — the whole
object is concatenated, the token value does not appear in the header at
all, and two tokens with different values produce the identical header.  So
the header is not correctly formatted for (indeed not even a function of)
that credential. -/
theorem C4_counterexample_legacy_header_drops_value :
    authorizationHeader ((setAuthToken anonClient
      (JSVal.vobj [("type", JSVal.vstr "OAuth"), ("value", JSVal.vstr "secret-a"),
        ("expires", JSVal.vnum 0)])).google_auth) =
      some "GoogleLogin auth=[object Object]" ∧
    authorizationHeader ((setAuthToken anonClient
      (JSVal.vobj [("type", JSVal.vstr "OAuth"), ("value", JSVal.vstr "secret-b"),
        ("expires", JSVal.vnum 0)])).google_auth) =
      some "GoogleLogin auth=[object Object]" ∧
    containsSub ("secret-a").data ("GoogleLogin auth=[object Object]").data = false :=
  ⟨rfl, rfl, by decide⟩

/-- C4 amended: after token injection, a Bearer-typed token object yields
`Bearer ` plus its value; any other credential yields `GoogleLogin auth=`
plus the JavaScript string conversion of the whole credential — the token
value itself is carried only when the credential is a plain string (a
non-Bearer token object degenerates to `[object Object]`); no credential,
no header. -/
theorem C4_amended_auth_header_formats (st : ClientState) (t v s : String)
    (e : Int) :
    (authorizationHeader ((setAuthToken st
      (JSVal.vobj [("type", JSVal.vstr "Bearer"), ("value", JSVal.vstr v),
        ("expires", JSVal.vnum e)])).google_auth) = some ("Bearer " ++ v)) ∧
    (t ≠ "Bearer" →
      authorizationHeader ((setAuthToken st
        (JSVal.vobj [("type", JSVal.vstr t), ("value", JSVal.vstr v),
          ("expires", JSVal.vnum e)])).google_auth) =
        some "GoogleLogin auth=[object Object]") ∧
    (s ≠ "" →
      authorizationHeader ((setAuthToken st (JSVal.vstr s)).google_auth) =
        some ("GoogleLogin auth=" ++ s)) ∧
    authorizationHeader ((setAuthToken st JSVal.vnull).google_auth) = none := by
  refine ⟨rfl, ?_, ?_, rfl⟩
  · intro ht
    have hga : (setAuthToken st (JSVal.vobj [("type", JSVal.vstr t),
        ("value", JSVal.vstr v), ("expires", JSVal.vnum e)])).google_auth =
        JSVal.vobj [("type", JSVal.vstr t), ("value", JSVal.vstr v),
          ("expires", JSVal.vnum e)] := rfl
    rw [hga]
    simp [authorizationHeader, buildHeaders, jsTruthy, jsStrictEqStr,
      propOrUndef, objLookup, recordSet, jsToString, ht]
  · intro hs
    have hga : (setAuthToken st (JSVal.vstr s)).google_auth = JSVal.vstr s := rfl
    rw [hga]
    simp [authorizationHeader, buildHeaders, jsTruthy, jsStrictEqStr,
      propOrUndef, objLookup, recordSet, jsToString, hs]

theorem C4_amended_auth_header_formats_witness :
    (authorizationHeader ((setAuthToken anonClient
      (JSVal.vobj [("type", JSVal.vstr "Bearer"), ("value", JSVal.vstr "tok-b"),
        ("expires", JSVal.vnum 7)])).google_auth) = some ("Bearer " ++ "tok-b")) ∧
    (("OAuth" : String) ≠ "Bearer" →
      authorizationHeader ((setAuthToken anonClient
        (JSVal.vobj [("type", JSVal.vstr "OAuth"), ("value", JSVal.vstr "tok-b"),
          ("expires", JSVal.vnum 7)])).google_auth) =
        some "GoogleLogin auth=[object Object]") ∧
    (("legacy" : String) ≠ "" →
      authorizationHeader ((setAuthToken anonClient (JSVal.vstr "legacy")).google_auth) =
        some ("GoogleLogin auth=" ++ "legacy")) ∧
    authorizationHeader ((setAuthToken anonClient JSVal.vnull).google_auth) = none :=
  C4_amended_auth_header_formats anonClient "OAuth" "tok-b" "legacy" 7

theorem applyAuthOp_mode_ne_anonymous (st : ClientState) (op : AuthOp) :
    (applyAuthOp st op).auth_mode ≠ "anonymous" := by
  cases op with
  | setTok auth =>
    show (setAuthToken st auth).auth_mode ≠ "anonymous"
    unfold setAuthToken setAuthAndDependencies
    by_cases h : st.auth_mode = "anonymous"
    · rw [if_pos h]
      simp [withAuthMode]
    · rw [if_neg h]
      simpa using h
  | useServiceAccount tok =>
    show (renewJwtAuth st tok).auth_mode ≠ "anonymous"
    simp [renewJwtAuth, setAuthToken, setAuthAndDependencies, withAuthMode]

theorem actualStep_applyAuthOp (st : ClientState) (op : AuthOp) :
    actualStep st.auth_mode (applyAuthOp st op).auth_mode = true := by
  cases op with
  | setTok auth =>
    show actualStep st.auth_mode (setAuthToken st auth).auth_mode = true
    unfold setAuthToken setAuthAndDependencies
    by_cases h : st.auth_mode = "anonymous"
    · rw [if_pos h]
      simp [withAuthMode, actualStep, h]
    · rw [if_neg h]
      simp [actualStep]
  | useServiceAccount tok =>
    show actualStep st.auth_mode (renewJwtAuth st tok).auth_mode = true
    simp [renewJwtAuth, setAuthToken, setAuthAndDependencies, withAuthMode,
      actualStep]

theorem modeTrace_shape (st : ClientState) (ops : List AuthOp) :
    modeTrace st ops = st.auth_mode :: (modeTrace st ops).tail := by
  cases ops <;> rfl

theorem modeTrace_all_ne_anonymous (ops : List AuthOp) :
    ∀ st : ClientState, st.auth_mode ≠ "anonymous" →
      (modeTrace st ops).all (fun m => m != "anonymous") = true := by
  induction ops with
  | nil =>
    intro st h
    simp [modeTrace, h]
  | cons op ops ih =>
    intro st h
    simp only [modeTrace, List.all_cons, Bool.and_eq_true]
    exact ⟨by simpa using h, ih _ (applyAuthOp_mode_ne_anonymous st op)⟩

theorem stepsOK_modeTrace_actual (ops : List AuthOp) :
    ∀ st : ClientState, stepsOK actualStep (modeTrace st ops) = true := by
  induction ops with
  | nil => intro st; rfl
  | cons op ops ih =>
    intro st
    simp only [modeTrace]
    rw [modeTrace_shape (applyAuthOp st op) ops]
    simp only [stepsOK, Bool.and_eq_true]
    refine ⟨actualStep_applyAuthOp st op, ?_⟩
    rw [← modeTrace_shape (applyAuthOp st op) ops]
    exact ih _

/-- C6 counterexample: from the anonymous state, inject a token and then
switch to service-account auth; the visited modes are `anonymous`, `token`,
`jwt`, and the step from `token` to `jwt` is outside the claimed transition
set (`anonymous → token`, `anonymous → service-account`, self-transitions). -/
theorem C6_counterexample_token_to_jwt :
    modeTrace anonClient
      [AuthOp.setTok (JSVal.vstr "tok"),
       AuthOp.useServiceAccount (FetchedToken.mk "Bearer" "sa" 0)] =
      ["anonymous", "token", "jwt"] ∧
    stepsOK claimedStep (modeTrace anonClient
      [AuthOp.setTok (JSVal.vstr "tok"),
       AuthOp.useServiceAccount (FetchedToken.mk "Bearer" "sa" 0)]) = false := by
  constructor
  · rfl
  · decide

/-- C6 amended: every transition a sequence of `setAuthToken` and
`useServiceAccountAuth` calls realises is a self-transition, `anonymous` to
`token`, or a move to `jwt` from any mode (so `token → jwt` is also
reachable); and once the mode has left `anonymous` — the head of the trace
is the only place it can be `anonymous` — no later state is `anonymous`. -/
theorem C6_amended_monotone_auth_modes (st : ClientState) (ops : List AuthOp) :
    stepsOK actualStep (modeTrace st ops) = true ∧
    ((modeTrace st ops).tail.all (fun m => m != "anonymous")) = true := by
  refine ⟨stepsOK_modeTrace_actual ops st, ?_⟩
  cases ops with
  | nil => rfl
  | cons op ops =>
    simp only [modeTrace, List.tail_cons]
    exact modeTrace_all_ne_anonymous ops _ (applyAuthOp_mode_ne_anonymous st op)

/-- C10: `getRows` forwards each option to the feed query object exactly
when its value is truthy, so `start` 0, `num` 0, `reverse` false and empty
`orderby`/`query` strings (all falsy) leave their parameter (`start-index`,
`max-results`, `orderby`, `reverse`, `sq`) out of the outgoing request. -/
theorem C10_getRows_query_forwards_only_truthy (fields : List (String × JSVal)) :
    hasQueryKey (getRowsQuery (JSVal.vobj fields)) "start-index" =
      jsTruthy (objLookup fields "start") ∧
    hasQueryKey (getRowsQuery (JSVal.vobj fields)) "max-results" =
      jsTruthy (objLookup fields "num") ∧
    hasQueryKey (getRowsQuery (JSVal.vobj fields)) "orderby" =
      jsTruthy (objLookup fields "orderby") ∧
    hasQueryKey (getRowsQuery (JSVal.vobj fields)) "reverse" =
      jsTruthy (objLookup fields "reverse") ∧
    hasQueryKey (getRowsQuery (JSVal.vobj fields)) "sq" =
      jsTruthy (objLookup fields "query") := by
  have hobj : jsTruthy (JSVal.vobj fields) = true := rfl
  have hprop : ∀ k, propOrUndef (JSVal.vobj fields) k = objLookup fields k :=
    fun _ => rfl
  by_cases h1 : jsTruthy (objLookup fields "start") <;>
    by_cases h2 : jsTruthy (objLookup fields "num") <;>
      by_cases h3 : jsTruthy (objLookup fields "orderby") <;>
        by_cases h4 : jsTruthy (objLookup fields "reverse") <;>
          by_cases h5 : jsTruthy (objLookup fields "query") <;>
            simp [getRowsQuery, hasQueryKey, recordSet, hobj, hprop,
              h1, h2, h3, h4, h5]

theorem isPrefixL_self_append (pat post : List Char) :
    isPrefixL pat (pat ++ post) = true := by
  induction pat with
  | nil => rfl
  | cons a as ih => simp [isPrefixL, ih]

theorem containsSub_of_isPrefixL (pat s : List Char)
    (h : isPrefixL pat s = true) : containsSub pat s = true := by
  cases s with
  | nil =>
    cases pat with
    | nil => rfl
    | cons c cs => simp [isPrefixL] at h
  | cons c cs => simp [containsSub, h]

theorem containsSub_infix (pre pat post : List Char) :
    containsSub pat (pre ++ pat ++ post) = true := by
  induction pre with
  | nil =>
    simp only [List.nil_append]
    exact containsSub_of_isPrefixL _ _ (isPrefixL_self_append pat post)
  | cons c cs ih =>
    show containsSub pat (c :: (cs ++ pat ++ post)) = true
    unfold containsSub
    rw [ih]
    simp

theorem containsSub_of_infix (pat s : List Char) (h : pat <:+: s) :
    containsSub pat s = true := by
  obtain ⟨pre, post, hsplit⟩ := h
  rw [← hsplit]
  exact containsSub_infix pre pat post

/-- C1: response classification in `makeFeedRequest` goes in order: status
401 is the authorization failure; any other status at least 400 is the
generic failure whose message contains the status code and the body; status
200 with a `content-type` containing `text/html` is the private-resource
failure, detected by content type alone and independent of the XML parser
(no parse runs); any other response is a success whose non-empty body is
handed to the parser. -/
theorem C1_response_classification_order (parse : String → JSVal)
    (res : HttpResponse) :
    (res.status = 401 →
      feedPipeline parse res =
        .error (.invalidAuth ("Invalid authorization key. " ++ res.body))) ∧
    (res.status ≠ 401 → 400 ≤ res.status →
      feedPipeline parse res =
        .error (.httpError ("HTTP error " ++ toString res.status ++ ": " ++
          STATUS_CODES res.status ++ ". " ++ res.body)) ∧
      containsSub (toString res.status).data
        ("HTTP error " ++ toString res.status ++ ": " ++
          STATUS_CODES res.status ++ ". " ++ res.body).data = true ∧
      containsSub res.body.data
        ("HTTP error " ++ toString res.status ++ ": " ++
          STATUS_CODES res.status ++ ". " ++ res.body).data = true) ∧
    (res.status = 200 →
      containsSub ("text/html").data res.contentType.data = true →
      ∀ parse2 : String → JSVal,
        feedPipeline parse2 res =
          .error (.sheetPrivate ("Sheet is private. Use authentication or make public. (see https://github.com/theoephraim/node-google-spreadsheet#a-note-on-authentication for details)\n" ++ res.body))) ∧
    (res.status ≠ 401 → res.status < 400 →
      ¬(res.status = 200 ∧ containsSub ("text/html").data res.contentType.data = true) →
      feedPipeline parse res =
        if res.body ≠ "" then .ok (parse res.body, JSVal.vstr res.body)
        else .ok (JSVal.vnull, JSVal.vnull)) := by
  refine ⟨?_, ?_, ?_, ?_⟩
  · intro h
    have hc : classifyResponse res =
        .error (.invalidAuth ("Invalid authorization key. " ++ res.body)) := by
      unfold classifyResponse
      rw [if_pos h]
    unfold feedPipeline
    rw [hc]
  · intro h1 h2
    have hc : classifyResponse res =
        .error (.httpError ("HTTP error " ++ toString res.status ++ ": " ++
          STATUS_CODES res.status ++ ". " ++ res.body)) := by
      unfold classifyResponse
      rw [if_neg h1, if_pos h2]
    refine ⟨by unfold feedPipeline; rw [hc], ?_, ?_⟩
    · refine containsSub_of_infix _ _ ⟨("HTTP error ").data,
        (": " ++ STATUS_CODES res.status ++ ". " ++ res.body).data, ?_⟩
      simp [List.append_assoc]
    · refine containsSub_of_infix _ _ ⟨("HTTP error " ++ toString res.status ++
        ": " ++ STATUS_CODES res.status ++ ". ").data, [], ?_⟩
      simp [List.append_assoc]
  · intro h200 hct parse2
    have h1 : ¬(res.status = 401) := by omega
    have h2 : ¬(400 ≤ res.status) := by omega
    have hc : classifyResponse res =
        .error (.sheetPrivate ("Sheet is private. Use authentication or make public. (see https://github.com/theoephraim/node-google-spreadsheet#a-note-on-authentication for details)\n" ++ res.body)) := by
      unfold classifyResponse
      rw [if_neg h1, if_neg h2, if_pos ⟨h200, hct⟩]
    unfold feedPipeline
    rw [hc]
  · intro h1 h2 h3
    have h2' : ¬(400 ≤ res.status) := by omega
    have hc : classifyResponse res = .ok res.body := by
      unfold classifyResponse
      rw [if_neg h1, if_neg h2', if_neg h3]
    unfold feedPipeline
    rw [hc]

theorem replaceAllChar_append (c : Char) (repl a b : List Char) :
    replaceAllChar c repl (a ++ b) =
      replaceAllChar c repl a ++ replaceAllChar c repl b := by
  induction a with
  | nil => rfl
  | cons x xs ih => simp [replaceAllChar, ih]

theorem xmlSafeValueL_append (a b : List Char) :
    xmlSafeValueL (a ++ b) = xmlSafeValueL a ++ xmlSafeValueL b := by
  simp [xmlSafeValueL, replaceAllChar_append]

theorem xmlSafeValueL_cons (c : Char) (s : List Char) :
    xmlSafeValueL (c :: s) = escChar c ++ xmlSafeValueL s := by
  have h : xmlSafeValueL (c :: s) = xmlSafeValueL [c] ++ xmlSafeValueL s := by
    rw [show (c :: s) = [c] ++ s from rfl, xmlSafeValueL_append]
  rw [h]
  congr 1
  by_cases h1 : c = '&'
  · subst h1; decide
  by_cases h2 : c = '<'
  · subst h2; decide
  by_cases h3 : c = '>'
  · subst h3; decide
  by_cases h4 : c = '\"'
  · subst h4; decide
  simp [xmlSafeValueL, replaceAllChar, escChar, h1, h2, h3, h4]

theorem xmlSafeValueL_eq_join_map (s : List Char) :
    xmlSafeValueL s = (s.map escChar).flatten := by
  induction s with
  | nil => rfl
  | cons c cs ih =>
    rw [xmlSafeValueL_cons, ih]
    simp

theorem unescape_escape (s : List Char) :
    unescapeXml (xmlSafeValueL s) = s := by
  induction s with
  | nil =>
    show unescapeXml [] = []
    rw [unescapeXml]
  | cons c cs ih =>
    rw [xmlSafeValueL_cons]
    by_cases h1 : c = '&'
    · subst h1
      show unescapeXml ('&' :: ('a' :: 'm' :: 'p' :: ';' :: xmlSafeValueL cs)) = _
      rw [unescapeXml]
      rw [if_pos rfl, if_pos (by simp [List.isPrefixOf])]
      rw [show ('a' :: 'm' :: 'p' :: ';' :: xmlSafeValueL cs).drop 4 =
        xmlSafeValueL cs from rfl, ih]
    · by_cases h2 : c = '<'
      · subst h2
        show unescapeXml ('&' :: ('l' :: 't' :: ';' :: xmlSafeValueL cs)) = _
        rw [unescapeXml]
        rw [if_pos rfl, if_neg (by simp [List.isPrefixOf]), if_pos (by simp [List.isPrefixOf])]
        rw [show ('l' :: 't' :: ';' :: xmlSafeValueL cs).drop 3 =
          xmlSafeValueL cs from rfl, ih]
      · by_cases h3 : c = '>'
        · subst h3
          show unescapeXml ('&' :: ('g' :: 't' :: ';' :: xmlSafeValueL cs)) = _
          rw [unescapeXml]
          rw [if_pos rfl, if_neg (by simp [List.isPrefixOf]),
            if_neg (by simp [List.isPrefixOf]), if_pos (by simp [List.isPrefixOf])]
          rw [show ('g' :: 't' :: ';' :: xmlSafeValueL cs).drop 3 =
            xmlSafeValueL cs from rfl, ih]
        · by_cases h4 : c = '\"'
          · subst h4
            show unescapeXml ('&' :: ('q' :: 'u' :: 'o' :: 't' :: ';' ::
              xmlSafeValueL cs)) = _
            rw [unescapeXml]
            rw [if_pos rfl, if_neg (by simp [List.isPrefixOf]),
              if_neg (by simp [List.isPrefixOf]), if_neg (by simp [List.isPrefixOf]),
              if_pos (by simp [List.isPrefixOf])]
            rw [show ('q' :: 'u' :: 'o' :: 't' :: ';' ::
              xmlSafeValueL cs).drop 5 = xmlSafeValueL cs from rfl, ih]
          · have he : escChar c = [c] := by simp [escChar, h1, h2, h3, h4]
            rw [he]
            show unescapeXml (c :: xmlSafeValueL cs) = c :: cs
            rw [unescapeXml, if_neg h1, ih]

/-- C8: `xmlSafeValue` rewrites a string character by character, replacing
exactly `&`, `<`, `>` and `"` by their entities (`escChar` is the identity
on every other character), and decoding those entities recovers the
original string. -/
theorem C8_xmlSafeValue_escapes_exactly_four_and_roundtrips (s : String) :
    (xmlSafeValue (JSVal.vstr s)).data = (s.data.map escChar).flatten ∧
    unescapeXml ((xmlSafeValue (JSVal.vstr s)).data) = s.data := by
  have hdata : (xmlSafeValue (JSVal.vstr s)).data = xmlSafeValueL s.data := rfl
  rw [hdata]
  exact ⟨xmlSafeValueL_eq_join_map s.data, unescape_escape s.data⟩

theorem jsToLowerChar_toNat_of_upper (c : Char)
    (h : 65 ≤ c.toNat ∧ c.toNat ≤ 90) :
    (jsToLowerChar c).toNat = c.toNat + 32 := by
  have hv : (c.toNat + 32).isValidChar := Or.inl (by omega)
  rw [jsToLowerChar, if_pos h]
  unfold Char.ofNat
  rw [dif_pos hv]
  rfl

theorem jsToLowerChar_of_not_upper (c : Char)
    (h : ¬(65 ≤ c.toNat ∧ c.toNat ≤ 90)) : jsToLowerChar c = c := by
  rw [jsToLowerChar, if_neg h]

theorem jsToLowerChar_idem (c : Char) :
    jsToLowerChar (jsToLowerChar c) = jsToLowerChar c := by
  by_cases h : 65 ≤ c.toNat ∧ c.toNat ≤ 90
  · have ht := jsToLowerChar_toNat_of_upper c h
    exact jsToLowerChar_of_not_upper _ (by rw [ht]; omega)
  · have hc := jsToLowerChar_of_not_upper c h
    rw [hc]
    exact hc

theorem jsToLowerChar_keeps_filter (c : Char)
    (h : (!(isJsSpace c || c = '_')) = true) :
    (!(isJsSpace (jsToLowerChar c) || jsToLowerChar c = '_')) = true := by
  by_cases hu : 65 ≤ c.toNat ∧ c.toNat ≤ 90
  · have ht := jsToLowerChar_toNat_of_upper c hu
    have h1 : isJsSpace (jsToLowerChar c) = false := by
      simp only [isJsSpace, List.mem_cons, List.not_mem_nil, or_false,
        decide_eq_false_iff_not]
      rw [ht]
      omega
    have h2 : ¬(jsToLowerChar c = '_') := by
      intro he
      have h95 : (jsToLowerChar c).toNat = 95 := by rw [he]; rfl
      rw [ht] at h95
      omega
    simp [h1, h2]
  · rw [jsToLowerChar_of_not_upper c hu]
    exact h

/-- C9: `xmlSafeColumnName` (lowercase, strip whitespace and underscores) is
idempotent: sanitizing an already sanitized column name changes nothing. -/
theorem C9_xmlSafeColumnName_idempotent (s : String) :
    xmlSafeColumnName (xmlSafeColumnName s) = xmlSafeColumnName s := by
  by_cases hs : s = ""
  · subst hs; rfl
  · unfold xmlSafeColumnName
    rw [if_neg hs]
    by_cases h2 : (⟨(s.data.filter
        (fun c => !(isJsSpace c || c = '_'))).map jsToLowerChar⟩ : String) = ""
    · rw [if_pos h2]
      exact h2.symm
    · rw [if_neg h2]
      have hlist : (((s.data.filter (fun c => !(isJsSpace c || c = '_'))).map
            jsToLowerChar).filter (fun c => !(isJsSpace c || c = '_'))).map
            jsToLowerChar =
          (s.data.filter (fun c => !(isJsSpace c || c = '_'))).map
            jsToLowerChar := by
        have hself : ((s.data.filter (fun c => !(isJsSpace c || c = '_'))).map
            jsToLowerChar).filter (fun c => !(isJsSpace c || c = '_')) =
            (s.data.filter (fun c => !(isJsSpace c || c = '_'))).map
              jsToLowerChar := by
          rw [List.filter_eq_self]
          intro a ha
          obtain ⟨b, hb, hba⟩ := List.mem_map.mp ha
          rw [← hba]
          exact jsToLowerChar_keeps_filter b (List.mem_filter.mp hb).2
        rw [hself, List.map_map]
        exact List.map_congr_left (fun a _ => jsToLowerChar_idem a)
      exact congrArg String.mk hlist

theorem expandDollar_cons_of_ne (matched pre post : List Char)
    (captures : List (List Char)) (c : Char) (rest : List Char)
    (hc : c ≠ '$') :
    expandDollar matched pre post captures (c :: rest) =
      c :: expandDollar matched pre post captures rest := by
  rw [expandDollar.eq_def]
  split <;> simp_all

theorem expandDollar_of_no_dollar (matched pre post : List Char)
    (captures : List (List Char)) (repl : List Char) (h : ¬ '$' ∈ repl) :
    expandDollar matched pre post captures repl = repl := by
  induction repl with
  | nil => rfl
  | cons c rest ih =>
    rw [List.mem_cons, not_or] at h
    rw [expandDollar_cons_of_ne _ _ _ _ _ _ (fun he => h.1 he.symm), ih h.2]

theorem dollar_not_mem_xmlSafeValueL (s : List Char) (h : ¬ '$' ∈ s) :
    ¬ '$' ∈ xmlSafeValueL s := by
  rw [xmlSafeValueL_eq_join_map]
  intro hmem
  obtain ⟨l, hl, hmeml⟩ := List.mem_flatten.mp hmem
  obtain ⟨c, hc, hcl⟩ := List.mem_map.mp hl
  rw [← hcl] at hmeml
  by_cases h1 : c = '&'
  · subst h1; revert hmeml; decide
  by_cases h2 : c = '<'
  · subst h2; revert hmeml; decide
  by_cases h3 : c = '>'
  · subst h3; revert hmeml; decide
  by_cases h4 : c = '\"'
  · subst h4; revert hmeml; decide
  have he : escChar c = [c] := by simp [escChar, h1, h2, h3, h4]
  rw [he, List.mem_singleton] at hmeml
  subst hmeml
  exact h hc

theorem replaceTagged_eq (opn cls repl s pre inner post : List Char)
    (h : findTagged opn cls s = some (pre, inner, post)) :
    replaceTagged opn cls repl s =
      pre ++ expandDollar (opn ++ inner ++ cls) pre post [inner] repl ++ post := by
  unfold replaceTagged
  rw [h]

/-- C3 counterexample: a row whose fragment opens with a bare `<entry>` and
whose column `a` was changed from `1` to `x`; the claim predicts the sent
document is the fragment with only that inner text changed, but `save()`
also rewrites the opening tag to carry namespace declarations, so the sent
document differs from the claimed one. -/
theorem C3_counterexample_namespace_injection :
    rowSaveXml [("_xml", JSVal.vstr "<entry><gsx:a>1</gsx:a><gsx:b>2</gsx:b></entry>"),
        ("id", JSVal.vstr "r1"), ("a", JSVal.vstr "x"), ("b", JSVal.vstr "2"),
        ("_links", JSVal.vobj [("edit", JSVal.vstr "https://example.invalid/edit")])]
      "<entry><gsx:a>1</gsx:a><gsx:b>2</gsx:b></entry>" ≠
    "<entry><gsx:a>x</gsx:a><gsx:b>2</gsx:b></entry>" := by decide

/-- C3 amended: for a row captured from `rowFrag3` whose column `b` is set
to a value free of the character `$` (a `$` in the escaped value would
undergo JavaScript replacement-pattern expansion instead of being sent
verbatim), `save()` sends the captured fragment with the bare `<entry>`
opening tag replaced by the namespace-bearing one and column `b`'s inner
text replaced by the escaped new value; every sibling element and all other
text is byte-identical to the fragment. -/
theorem C3_amended_save_patches_fragment (bval : String)
    (hb : ¬ '$' ∈ bval.data) :
    rowSaveXml (rowFields3 bval) rowFrag3 =
      nsEntryOpen ++ "<gsx:a>1</gsx:a><gsx:b>" ++ xmlSafeValue (JSVal.vstr bval) ++
        "</gsx:b></entry>" := by
  have h0 : rowSaveXml (rowFields3 bval) rowFrag3 =
      String.mk (replaceTagged (gsxOpenTag "b") (gsxCloseTag "b")
        (gsxOpenTag "b" ++ xmlSafeValueL bval.data ++ gsxCloseTag "b")
        ((nsEntryOpen ++ "<gsx:a>1</gsx:a><gsx:b>2</gsx:b></entry>").data)) := rfl
  have hfind : findTagged (gsxOpenTag "b") (gsxCloseTag "b")
      ((nsEntryOpen ++ "<gsx:a>1</gsx:a><gsx:b>2</gsx:b></entry>").data) =
      some ((nsEntryOpen ++ "<gsx:a>1</gsx:a>").data,
        ("2").data, ("</entry>").data) := by decide
  have hne : ¬ '$' ∈ (gsxOpenTag "b" ++ xmlSafeValueL bval.data ++ gsxCloseTag "b") := by
    intro hmem
    rcases List.mem_append.mp hmem with hmem1 | hmem3
    · rcases List.mem_append.mp hmem1 with hmem0 | hmem2
      · revert hmem0; decide
      · exact dollar_not_mem_xmlSafeValueL bval.data hb hmem2
    · revert hmem3; decide
  rw [h0, replaceTagged_eq _ _ _ _ _ _ _ hfind,
    expandDollar_of_no_dollar _ _ _ _ _ hne]
  apply String.ext
  have hval : (xmlSafeValue (JSVal.vstr bval)).data = xmlSafeValueL bval.data := rfl
  have h1 : (nsEntryOpen ++ "<gsx:a>1</gsx:a>").data ++ gsxOpenTag "b" =
      (nsEntryOpen ++ "<gsx:a>1</gsx:a><gsx:b>").data := by decide
  have h2 : gsxCloseTag "b" ++ ("</entry>").data = ("</gsx:b></entry>").data := by
    decide
  show (nsEntryOpen ++ "<gsx:a>1</gsx:a>").data ++
      (gsxOpenTag "b" ++ xmlSafeValueL bval.data ++ gsxCloseTag "b") ++
      ("</entry>").data =
    (nsEntryOpen ++ "<gsx:a>1</gsx:a><gsx:b>" ++ xmlSafeValue (JSVal.vstr bval) ++
      "</gsx:b></entry>").data
  rw [show (nsEntryOpen ++ "<gsx:a>1</gsx:a>").data ++
      (gsxOpenTag "b" ++ xmlSafeValueL bval.data ++ gsxCloseTag "b") ++
      ("</entry>").data =
      ((nsEntryOpen ++ "<gsx:a>1</gsx:a>").data ++ gsxOpenTag "b") ++
      xmlSafeValueL bval.data ++ (gsxCloseTag "b" ++ ("</entry>").data) from by
    simp [List.append_assoc]]
  rw [h1, h2, ← hval]
  simp [String.data_append, List.append_assoc]

theorem C3_amended_save_patches_fragment_witness :
    rowSaveXml (rowFields3 "x&y") rowFrag3 =
      nsEntryOpen ++ "<gsx:a>1</gsx:a><gsx:b>" ++ xmlSafeValue (JSVal.vstr "x&y") ++
        "</gsx:b></entry>" :=
  C3_amended_save_patches_fragment "x&y" (by decide)
